import Mathlib

/-!
Shallow embedding of the each_cmd program (src/main.rs).

The program reads a JSON configuration, renders one shell command per
hostname by literal substring replacement of a placeholder tag, submits
each rendered command to a CpuPool of thread_count workers, races each
submitted job against a tokio timer of timeout_ms milliseconds, and then
waits on the resulting futures in submission order, printing one line per
outcome.  Per-task results are values of type Result with Output on
success and an error_chain error of kind CommandLaunch or Timeout on
failure.

Modelling choices, each justified by the source:
* Strings that the renderer scans are List Char; stdout and stderr are
  opaque String values since the core never inspects them.
* The shell executor is an external collaborator: it is an oracle
  parameter giving, for each invocation, either the captured Output or a
  launch-error cause.  runCmd wraps the oracle exactly as the source
  wraps Command::output with chain_err CommandLaunch (main.rs lines
  59-70).
* Time is modelled by explicit natural-number instants.  All futures are
  created during the collect on lines 94-112, which is instantaneous in
  the model (dispatch time 0 for every task).  The tokio_timer sleep is
  registered at creation, so every deadline is the instant timeout_ms,
  independent of when a pool slot is acquired.  The CpuPool runs FIFO
  with thread_count workers: each task starts when a worker frees up, and
  its executor half finishes start + duration later.
* futures 0.1 combinators are inert until polled, and the wait loop of
  lines 116-128 polls the selects sequentially: the select of task i is
  first polled at the instant the previous wait returned.  select polls
  the timer branch first and the tokio timer sleep is ready at any
  instant at or past its dispatch-anchored deadline, so the executor
  branch wins only when both its result and the first poll happen
  strictly before the deadline.  In particular a task whose executor
  finished in time is still reported as a timeout when an earlier task
  held the loop at or past the shared deadline.
* CpuPool::new asserts that the pool size is positive and panics when
  thread_count is 0 (futures-cpupool, documented panic).  The panic
  happens on line 91, before the spawn loop, and bypasses the Result
  channel of run, so the model gives it a dedicated RunExit constructor.
-/

namespace EachCmd

/-- Captured process output, as std::process::Output: exit status plus the
captured stdout and stderr bytes. -/
structure Output where
  status : Int
  stdout : String
  stderr : String
deriving DecidableEq, Repr

/-- Error kinds of the error_chain block in main.rs lines 25-38: a command
launch error carrying its cause, or an execution timeout. -/
inductive CmdError where
  | commandLaunch (cause : String)
  | timeout
deriving DecidableEq, Repr

/-- Per-task result type: Result of Output and an error_chain error, as
produced by the select future on lines 99-110. -/
abbrev Outcome := Except CmdError Output

/-- Configuration record parsed from JSON (main.rs lines 42-50).  usize and
u64 fields are nonnegative by type, hence Nat. -/
structure Config where
  hostnames : List (List Char)
  cmd_to_run : List Char
  hostname_tag : List Char
  thread_count : Nat
  timeout_ms : Nat

/-- Scan for nonempty patterns underlying Rust str::replace: at each
position, if the pattern is a prefix, emit the replacement and skip the
match (leftmost, non-overlapping); otherwise keep the character.  Only
called with a nonempty tag. -/
def goReplace (tag rep : List Char) : List Char → List Char
  | [] => []
  | c :: s =>
    if tag.isPrefixOf (c :: s) then
      rep ++ goReplace tag rep (List.drop (tag.length - 1) s)
    else
      c :: goReplace tag rep s
termination_by s => s.length
decreasing_by
  · simp [List.length_drop]; omega
  · simp

/-- Embedding of Rust str::replace as called on main.rs line 97.  An empty
pattern matches at every character boundary of the haystack, including
before the first character and after the last, so the replacement is
inserted at every boundary. -/
def rustReplace (s tag rep : List Char) : List Char :=
  if tag = [] then
    rep ++ (s.map (fun c => c :: rep)).flatten
  else
    goReplace tag rep s

/-- Rendered command for one hostname (main.rs line 97): the template with
every occurrence of the hostname tag replaced by the hostname. -/
def renderedCmd (cfg : Config) (h : List Char) : List Char :=
  rustReplace cfg.cmd_to_run cfg.hostname_tag h

/-- Whether tag occurs as a contiguous substring of t.  The empty tag
occurs in every string. -/
def occursIn (tag : List Char) : List Char → Bool
  | [] => tag.isEmpty
  | c :: s => tag.isPrefixOf (c :: s) || occursIn tag s

/-- Join a list of segments with a separator between consecutive segments:
the intercalation used by the specification-side renderer. -/
def joinWith (sep : List Char) : List (List Char) → List Char
  | [] => []
  | [x] => x
  | x :: y :: ys => x ++ sep ++ joinWith sep (y :: ys)

/-- Split a string at every leftmost, non-overlapping occurrence of a
nonempty tag, keeping the segments between occurrences. -/
def specSplit (tag : List Char) : List Char → List (List Char)
  | [] => [[]]
  | c :: s =>
    if tag.isPrefixOf (c :: s) then
      [] :: specSplit tag (List.drop (tag.length - 1) s)
    else
      match specSplit tag s with
      | [] => [[c]]
      | seg :: rest => (c :: seg) :: rest
termination_by s => s.length
decreasing_by
  · simp [List.length_drop]; omega
  · simp

/-- Specification-side renderer, written from the words of spec section
4.1: the result is the template cut at every occurrence of the placeholder
tag, with the hostname interposed between the cuts.  For the empty tag the
occurrences are the character boundaries of the template. -/
def specRender (t tag h : List Char) : List Char :=
  if tag = [] then
    joinWith h ([] :: (t.map (fun c => [c]) ++ [[]]))
  else
    joinWith h (specSplit tag t)

/-- Embedding of runCmd (main.rs lines 59-70): invoke the platform shell
on the command through the external oracle and wrap any error of the
invocation as a CommandLaunch error; the Output is passed through
untouched, whatever its exit status. -/
def runCmd (shell : List Char → Except String Output) (cmd : List Char) :
    Except CmdError Output :=
  match shell cmd with
  | .ok out => .ok out
  | .error cause => .error (.commandLaunch cause)

/-- Smallest element of a list of instants, used for the next free worker
of the pool.  The pool is never consulted with an empty worker list when
thread_count is positive. -/
def listMin : List Nat → Nat
  | [] => 0
  | [x] => x
  | x :: y :: ys => min x (listMin (y :: ys))

/-- Replace the first occurrence of value tgt in the list by v: books the
chosen worker slot until its new free instant. -/
def replaceFirst : List Nat → Nat → Nat → List Nat
  | [], _, _ => []
  | x :: xs, tgt, v => if x = tgt then v :: xs else x :: replaceFirst xs tgt v

/-- FIFO schedule of the CpuPool: free is the list of instants at which
each worker becomes free; every task, in submission order, starts at the
smallest such instant and occupies that worker for its duration.  Returns
the start instant of each task. -/
def schedStarts (free : List Nat) : List Nat → List Nat
  | [] => []
  | d :: ds =>
    let s := listMin free
    s :: schedStarts (replaceFirst free s (s + d)) ds

/-- Start instants of all tasks under a pool of c workers that are all
free at instant 0, the dispatch instant. -/
def poolStarts (c : Nat) (durs : List Nat) : List Nat :=
  schedStarts (List.replicate c 0) durs

/-- External execution environment of one run: for every task index, the
shell oracle answering that invocation, and the wall-clock duration the
executor half occupies its worker slot. -/
structure ExecEnv where
  shell : Nat → List Char → Except String Output
  execDur : Nat → Nat

/-- Durations of the executor calls of all tasks, in submission order. -/
def durations (cfg : Config) (env : ExecEnv) : List Nat :=
  (List.range cfg.hostnames.length).map env.execDur

/-- Start instant of task i under the FIFO pool schedule. -/
def taskStart (cfg : Config) (env : ExecEnv) (i : Nat) : Nat :=
  (poolStarts cfg.thread_count (durations cfg env)).getD i 0

/-- One exec future of the collect on lines 94-112: the deadline of its
timer, the instant its executor half delivers a result, and that result. -/
structure Fut where
  deadline : Nat
  finish : Nat
  result : Outcome

/-- Future of task i as built by the map over hostnames (lines 94-112):
its timer deadline is timeout_ms from the dispatch instant 0 (the tokio
timer is registered at creation), its executor half delivers its result
at the pool start plus the duration, and that result is the wrapped shell
result of the rendered command of hostnames at position i. -/
def mkFut (cfg : Config) (env : ExecEnv) (i : Nat) : Fut :=
  { deadline := cfg.timeout_ms
    finish := taskStart cfg env i + env.execDur i
    result := runCmd (env.shell i) (renderedCmd cfg (cfg.hostnames.getD i [])) }

/-- Futures created by the collect on lines 94-112, in submission
order. -/
def execFuts (cfg : Config) (env : ExecEnv) : List Fut :=
  (List.range cfg.hostnames.length).map (mkFut cfg env)

/-- Resolution of one select future whose wait (line 117) first polls it
at instant now.  select polls the timer branch first, and the sleep is
ready at every instant at or past the deadline, so the executor branch
wins only when its result is available and the poll happens strictly
before the deadline; otherwise the expired timer is observed first and
the select yields the Timeout error.  The second component is the instant
at which wait returns: the readiness instant of the winning side, never
earlier than the poll. -/
def resolveFut (now : Nat) (f : Fut) : Outcome × Nat :=
  if max now f.finish < f.deadline then (f.result, max now f.finish)
  else (.error .timeout, max now f.deadline)

/-- The wait loop of lines 116-128: the futures are waited on
sequentially in submission order, so each select is first polled at the
instant the previous wait returned; every future contributes exactly one
outcome, and an error outcome is printed and never stops the loop. -/
def collectOutcomes (now : Nat) : List Fut → List Outcome
  | [] => []
  | f :: fs => (resolveFut now f).1 :: collectOutcomes (resolveFut now f).2 fs

/-- Run result of one configuration under one environment: the outcomes
of the wait loop, which starts at the dispatch instant 0, in submission
order. -/
def runOutcomes (cfg : Config) (env : ExecEnv) : List Outcome :=
  collectOutcomes 0 (execFuts cfg env)

/-- Instant at which the wait loop first polls the select of task i: the
dispatch instant 0 for the first task, then the instant the previous wait
returned. -/
def pollTime (cfg : Config) (env : ExecEnv) : Nat → Nat
  | 0 => 0
  | i + 1 => (resolveFut (pollTime cfg env i) (mkFut cfg env i)).2

/-- Outcome reported for task i: its select resolved at the instant the
sequential wait loop reaches it. -/
def taskOutcome (cfg : Config) (env : ExecEnv) (i : Nat) : Outcome :=
  (resolveFut (pollTime cfg env i) (mkFut cfg env i)).1

/-- Tasks in the sense of the spec data model: index and rendered command,
one per hostname in submission order. -/
def tasks (cfg : Config) : List (Nat × List Char) :=
  (List.range cfg.hostnames.length).map
    (fun i => (i, renderedCmd cfg (cfg.hostnames.getD i [])))

/-- Whole-run errors surfaced through the Result of run (main.rs lines
76-88): failure to open or read the configuration file, or failure to
parse its JSON content. -/
inductive RunError where
  | fileRead (msg : String)
  | parse (msg : String)
deriving DecidableEq, Repr

/-- How a run of the program ends: normally with the run result, with a
whole-run configuration error carried by the Result of run, or with a
panic raised outside the Result channel. -/
inductive RunExit where
  | ok (outcomes : List Outcome)
  | err (e : RunError)
  | panicked (msg : String)
deriving Repr

/-- Loading environment: result of opening and reading the configuration
file, and of parsing a given file content into a Config. -/
structure LoadEnv where
  fileContent : Except String String
  parsed : String → Except String Config

/-- Panic message of the positive-pool-size assertion of CpuPool. -/
def poolSizePanic : String := "CpuPool pool size must be positive"

/-- Embedding of run (main.rs lines 72-131): read and parse the
configuration, construct the pool, which panics on a zero thread count
before anything is submitted, then dispatch all tasks and collect their
outcomes; per-task errors never escape the wait loop, so a run that gets
past the pool construction always ends in ok. -/
def runProgram (lenv : LoadEnv) (env : ExecEnv) : RunExit :=
  match lenv.fileContent with
  | .error e => .err (.fileRead e)
  | .ok content =>
    match lenv.parsed content with
    | .error e => .err (.parse e)
    | .ok cfg =>
      if cfg.thread_count = 0 then .panicked poolSizePanic
      else .ok (runOutcomes cfg env)

/-- Tasks actually submitted to the pool during a run: none when loading,
parsing or the pool construction fails, since the panic on line 91
precedes the spawn loop of lines 94-112. -/
def submittedTasks (lenv : LoadEnv) : List (Nat × List Char) :=
  match lenv.fileContent with
  | .error _ => []
  | .ok content =>
    match lenv.parsed content with
    | .error _ => []
    | .ok cfg => if cfg.thread_count = 0 then [] else tasks cfg

/-- Embedding of main (main.rs lines 133-153): exit code 0 when run
returns Ok, exit code 1 when it returns Err, and the standard Rust panic
exit code 101 when the pool construction panics. -/
def mainExit (lenv : LoadEnv) (env : ExecEnv) : Nat :=
  match runProgram lenv env with
  | .ok _ => 0
  | .err _ => 1
  | .panicked _ => 101

/-- Concrete captured output used by witnesses; its exit status 7 is
nonzero on purpose. -/
def outW : Output := ⟨7, String.mk ['o'], String.mk ['e']⟩

/-- Concrete launch-error cause used by witnesses. -/
def causeW : String := String.mk ['b']

/-- Shell oracle that always launches and captures outW. -/
def shellOk : Nat → List Char → Except String Output := fun _ _ => .ok outW

/-- Shell oracle that always fails to launch. -/
def shellErr : Nat → List Char → Except String Output := fun _ _ => .error causeW

/-- Environment whose executor calls succeed quickly. -/
def envOk : ExecEnv := ⟨shellOk, fun _ => 1⟩

/-- Environment whose executor calls fail to launch quickly. -/
def envErr : ExecEnv := ⟨shellErr, fun _ => 1⟩

/-- Environment whose executor calls succeed but take 10 time units. -/
def envSlow : ExecEnv := ⟨shellOk, fun _ => 10⟩

/-- Environment equal to envOk everywhere except that invocation 0 fails
to launch. -/
def envMix : ExecEnv :=
  ⟨fun k c => if k = 0 then .error causeW else shellOk k c, fun _ => 1⟩

/-- Two hostnames, two workers, a generous deadline. -/
def cfgW : Config := ⟨[['a'], ['b']], ['e', 'c', 'h', 'o', ' ', 'H'], ['H'], 2, 5⟩

/-- One hostname and a deadline that is already due at dispatch. -/
def cfgZeroTimeout : Config := ⟨[['a']], ['e', ' ', 'H'], ['H'], 1, 0⟩

/-- Two hostnames sharing a single worker. -/
def cfgOneWorker : Config := ⟨[['a'], ['b']], ['e', ' ', 'H'], ['H'], 1, 5⟩

/-- Invalid configuration with a zero thread count. -/
def cfgZeroWorkers : Config := ⟨[['a']], ['e', ' ', 'H'], ['H'], 0, 5⟩

/-- Valid configuration with no hostnames at all. -/
def cfgNoHosts : Config := ⟨[], ['e', ' ', 'H'], ['H'], 2, 5⟩

/-- Concrete configuration file content used by witnesses. -/
def contentW : String := String.mk ['c']

/-- Loading environment that reads contentW and parses it to the given
configuration. -/
def lenvOf (cfg : Config) : LoadEnv := ⟨.ok contentW, fun _ => .ok cfg⟩

/-- Loading environment whose configuration file cannot be read. -/
def lenvBad : LoadEnv := ⟨.error causeW, fun _ => .error causeW⟩

/-- Environment where invocation 0 takes 10 units and every later
invocation takes 1, all launches succeeding. -/
def envLate : ExecEnv := ⟨shellOk, fun k => if k = 0 then 10 else 1⟩

/-- Two hostnames, two workers, deadline 5, empty placeholder tag.  Under
envLate, task 0 times out at instant 5 while task 1 finishes at instant
1; the wait loop reaches task 1 only at instant 5, past the shared
deadline. -/
def cfgLate : Config := ⟨[['a'], ['b']], ['e', ' ', 'H'], [], 2, 5⟩

end EachCmd

namespace EachCmd

/-- The splitter never produces an empty list of segments. -/
theorem specSplit_ne_nil (tag : List Char) : ∀ s : List Char, specSplit tag s ≠ [] := by
  intro s
  match s with
  | [] => simp [specSplit]
  | c :: s2 =>
    rw [specSplit]
    split
    · simp
    · cases h : specSplit tag s2 <;> simp

/-- Unfolding joinWith on a head segment when the tail is nonempty. -/
theorem joinWith_cons_ne (sep x : List Char) (L : List (List Char)) (hL : L ≠ []) :
    joinWith sep (x :: L) = x ++ sep ++ joinWith sep L := by
  cases L with
  | nil => exact absurd rfl hL
  | cons y ys => rfl

/-- A character at the head of the first segment moves out of the join. -/
theorem joinWith_cons_head (sep : List Char) (c : Char) (seg : List Char)
    (rest : List (List Char)) :
    joinWith sep ((c :: seg) :: rest) = c :: joinWith sep (seg :: rest) := by
  cases rest with
  | nil => rfl
  | cons r rs => simp [joinWith]

/-- The replacement scan for a nonempty tag computes the intercalation of
the segments between occurrences. -/
theorem goReplace_eq_spec (tag rep : List Char) (s : List Char) :
    goReplace tag rep s = joinWith rep (specSplit tag s) := by
  generalize hn : s.length = n
  induction n using Nat.strong_induction_on generalizing s with
  | _ n ih =>
    match s with
    | [] => simp [goReplace, specSplit, joinWith]
    | c :: s2 =>
      rw [goReplace, specSplit]
      by_cases hp : tag.isPrefixOf (c :: s2)
      · rw [if_pos hp, if_pos hp]
        rw [joinWith_cons_ne rep [] _ (specSplit_ne_nil tag _)]
        have hlt : (List.drop (tag.length - 1) s2).length < n := by
          subst hn; simp [List.length_drop]; omega
        rw [ih _ hlt _ rfl]
        simp
      · rw [if_neg hp, if_neg hp]
        have hlt : s2.length < n := by subst hn; simp
        obtain ⟨seg, rest, hsr⟩ :
            ∃ seg rest, specSplit tag s2 = seg :: rest := by
          cases h : specSplit tag s2 with
          | nil => exact absurd h (specSplit_ne_nil tag s2)
          | cons a b => exact ⟨a, b, rfl⟩
        rw [hsr, joinWith_cons_head, ← hsr, ← ih _ hlt _ rfl]

/-- The boundary segments of the empty-tag case intercalate to the flatten
of per-character blocks. -/
theorem joinWith_boundary (rep : List Char) : ∀ s : List Char,
    joinWith rep (s.map (fun c => [c]) ++ [[]]) =
      (s.map (fun c => c :: rep)).flatten := by
  intro s
  induction s with
  | nil => rfl
  | cons c s2 ih =>
    have hne : s2.map (fun c => [c]) ++ [[]] ≠ [] := by simp
    rw [List.map_cons, List.cons_append,
      joinWith_cons_ne rep [c] _ hne, ih]
    simp

/-- Both renderers agree everywhere. -/
theorem rustReplace_eq_specRender (t tag h : List Char) :
    rustReplace t tag h = specRender t tag h := by
  by_cases htag : tag = []
  · subst htag
    rw [rustReplace, if_pos rfl, specRender, if_pos rfl]
    have hne : t.map (fun c => [c]) ++ [[]] ≠ [] := by simp
    rw [joinWith_cons_ne h [] _ hne, joinWith_boundary]
    simp
  · rw [rustReplace, if_neg htag, specRender, if_neg htag]
    exact goReplace_eq_spec tag h t

/-- The empty tag occurs in every string. -/
theorem occursIn_nil_tag : ∀ t : List Char, occursIn [] t = true := by
  intro t
  cases t <;> simp [occursIn, List.isPrefixOf]

/-- When the tag never occurs, the scan copies the string unchanged. -/
theorem goReplace_no_occur (tag rep : List Char) :
    ∀ t : List Char, occursIn tag t = false → goReplace tag rep t = t := by
  intro t
  induction t with
  | nil => intro _; simp [goReplace]
  | cons c s2 ih =>
    intro hocc
    rw [occursIn] at hocc
    simp only [Bool.or_eq_false_iff] at hocc
    rw [goReplace, if_neg (by simp [hocc.1]), ih hocc.2]

end EachCmd

namespace EachCmd

/-- Outcome component of a resolution. -/
theorem resolveFut_fst (now : Nat) (f : Fut) :
    (resolveFut now f).1 =
      if max now f.finish < f.deadline then f.result else .error .timeout := by
  rw [resolveFut]
  split <;> rfl

/-- Return-instant component of a resolution; it does not depend on the
value carried by the executor branch. -/
theorem resolveFut_snd (now : Nat) (f : Fut) :
    (resolveFut now f).2 =
      if max now f.finish < f.deadline then max now f.finish
      else max now f.deadline := by
  rw [resolveFut]
  split <;> rfl

/-- Finish instant of the future of task i. -/
theorem mkFut_finish (cfg : Config) (env : ExecEnv) (i : Nat) :
    (mkFut cfg env i).finish = taskStart cfg env i + env.execDur i := rfl

/-- Deadline of the future of task i: the shared dispatch-anchored
timeout. -/
theorem mkFut_deadline (cfg : Config) (env : ExecEnv) (i : Nat) :
    (mkFut cfg env i).deadline = cfg.timeout_ms := rfl

/-- Executor result of the future of task i. -/
theorem mkFut_result (cfg : Config) (env : ExecEnv) (i : Nat) :
    (mkFut cfg env i).result =
      runCmd (env.shell i) (renderedCmd cfg (cfg.hostnames.getD i [])) := rfl

/-- The wait loop pairs every future of a block of consecutive tasks with
its task outcome, the poll instants threading through. -/
theorem collect_range (cfg : Config) (env : ExecEnv) :
    ∀ m k : Nat,
      collectOutcomes (pollTime cfg env k)
          ((List.range' k m).map (mkFut cfg env)) =
        (List.range' k m).map (taskOutcome cfg env) := by
  intro m
  induction m with
  | zero => intro k; rfl
  | succ m2 ih =>
    intro k
    rw [List.range'_succ, List.map_cons, List.map_cons, collectOutcomes]
    exact congrArg (List.cons (taskOutcome cfg env k)) (ih (k + 1))

/-- The run result is the per-index task outcome at every index. -/
theorem runOutcomes_eq (cfg : Config) (env : ExecEnv) :
    runOutcomes cfg env =
      (List.range cfg.hostnames.length).map (taskOutcome cfg env) := by
  rw [runOutcomes, execFuts, List.range_eq_range']
  exact collect_range cfg env cfg.hostnames.length 0

/-- Start instants only depend on the durations. -/
theorem taskStart_congr (cfg : Config) (env env2 : ExecEnv)
    (hd : ∀ k, env2.execDur k = env.execDur k) (i : Nat) :
    taskStart cfg env2 i = taskStart cfg env i := by
  unfold taskStart poolStarts durations
  rw [List.map_congr_left (fun k _ => hd k)]

/-- Poll instants only depend on the durations, not on the values the
executor branches deliver. -/
theorem pollTime_congr (cfg : Config) (env env2 : ExecEnv)
    (hd : ∀ k, env2.execDur k = env.execDur k) :
    ∀ i, pollTime cfg env2 i = pollTime cfg env i := by
  intro i
  induction i with
  | zero => rfl
  | succ k ih =>
    simp only [pollTime]
    rw [ih, resolveFut_snd, resolveFut_snd, mkFut_finish, mkFut_finish,
      mkFut_deadline, mkFut_deadline, taskStart_congr cfg env env2 hd k, hd k]

/-- C4: render equals the template with every occurrence of the
placeholder tag replaced by the hostname, as literal substring
replacement with no escaping and no recursive expansion, which the
specification-side renderer specRender expresses as intercalating the
hostname between the segments of the template cut at the tag occurrences;
in particular, when the tag does not occur in the template the result is
the template unchanged, for every hostname. -/
theorem render_is_literal_replacement (t tag h : List Char) :
    rustReplace t tag h = specRender t tag h ∧
    (occursIn tag t = false → rustReplace t tag h = t) := by
  refine ⟨rustReplace_eq_specRender t tag h, ?_⟩
  intro hocc
  have htag : tag ≠ [] := by
    intro he
    subst he
    rw [occursIn_nil_tag t] at hocc
    exact Bool.noConfusion hocc
  rw [rustReplace, if_neg htag]
  exact goReplace_no_occur tag h t hocc

/-- Witness for C4 at a concrete template, tag and hostname with the tag
absent from the template. -/
theorem render_is_literal_replacement_witness :
    occursIn ['H'] ['e', 'c'] = false ∧
    (rustReplace ['e', 'c'] ['H'] ['a'] = specRender ['e', 'c'] ['H'] ['a'] ∧
      rustReplace ['e', 'c'] ['H'] ['a'] = ['e', 'c']) := by
  have h := render_is_literal_replacement ['e', 'c'] ['H'] ['a']
  exact ⟨by decide, h.1, h.2 (by decide)⟩

/-- Auxiliary length computation for the empty-tag rendering. -/
theorem flatten_block_length (h : List Char) : ∀ t : List Char,
    ((t.map (fun c => c :: h)).flatten).length = t.length * (1 + h.length) := by
  intro t
  induction t with
  | nil => simp
  | cons c s2 ih =>
    rw [List.map_cons, List.flatten_cons, List.length_append, ih]
    simp
    ring

/-- C10: with an empty placeholder tag and a nonempty hostname, render
does not return the template unchanged; the hostname is inserted at every
character boundary, so the length of the result is the length of the
template plus one more than that length times the hostname length. -/
theorem empty_tag_inserts_hostname (t h : List Char) (hh : h ≠ []) :
    rustReplace t [] h ≠ t ∧
    (rustReplace t [] h).length = t.length + (t.length + 1) * h.length := by
  have hlen : (rustReplace t [] h).length
      = t.length + (t.length + 1) * h.length := by
    rw [rustReplace, if_pos rfl, List.length_append, flatten_block_length]
    ring
  refine ⟨?_, hlen⟩
  intro he
  have hl := congrArg List.length he
  rw [hlen] at hl
  have h0 : (t.length + 1) * h.length = 0 := by omega
  rcases Nat.mul_eq_zero.mp h0 with h1 | h2
  · exact absurd h1 (Nat.succ_ne_zero _)
  · exact hh (List.length_eq_zero.mp h2)

/-- Witness for C10 at a one-character template and hostname. -/
theorem empty_tag_inserts_hostname_witness :
    (['x'] : List Char) ≠ [] ∧
    (rustReplace ['a'] [] ['x'] ≠ ['a'] ∧
      (rustReplace ['a'] [] ['x']).length =
        List.length ['a'] + (List.length ['a'] + 1) * List.length ['x']) :=
  ⟨by decide, empty_tag_inserts_hostname ['a'] ['x'] (by decide)⟩

end EachCmd

namespace EachCmd

/-- C1: for every hostname list the run result has exactly one outcome
per hostname, and the outcome stored at position i is the outcome of the
task built from the hostname at position i, whatever the environment, so
whatever the completion times and however many tasks fail or time out:
consumers only ever see submission order. -/
theorem run_result_in_submission_order (cfg : Config) (env : ExecEnv)
    (hc : 0 < cfg.thread_count) :
    (runOutcomes cfg env).length = cfg.hostnames.length ∧
    ∀ i, i < cfg.hostnames.length →
      (runOutcomes cfg env).getD i (.error .timeout) = taskOutcome cfg env i := by
  constructor
  · rw [runOutcomes_eq]
    simp
  · intro i hi
    rw [runOutcomes_eq, List.getD_eq_getElem _ _ (by simpa using hi)]
    simp

/-- Witness for C1 on a two-hostname configuration. -/
theorem run_result_in_submission_order_witness :
    0 < cfgW.thread_count ∧
    ((runOutcomes cfgW envOk).length = cfgW.hostnames.length ∧
      ∀ i, i < cfgW.hostnames.length →
        (runOutcomes cfgW envOk).getD i (.error .timeout) =
          taskOutcome cfgW envOk i) :=
  ⟨by decide, run_result_in_submission_order cfgW envOk (by decide)⟩

/-- Counterexample to C2 as stated: in cfgLate under envLate, the
executor of task 1 finishes successfully at instant 1, strictly before
its deadline 5, yet the program reports the Timeout error in slot 1,
because the wait loop reaches that select only at instant 5, when the
race of task 0 resolved, and the expired timer branch is polled first. -/
theorem race_first_finisher_cex :
    taskStart cfgLate envLate 1 + envLate.execDur 1 < cfgLate.timeout_ms ∧
    envLate.shell 1 (renderedCmd cfgLate (cfgLate.hostnames.getD 1 [])) =
      .ok outW ∧
    (runOutcomes cfgLate envLate).length = 2 ∧
    (runOutcomes cfgLate envLate).getD 1 (.ok outW) = .error .timeout :=
  ⟨by decide, rfl, rfl, rfl⟩

/-- C2 amended: the race resolves by whichever side is ready first as
observed by the sequential wait loop.  The executor side wins exactly
when both its finish and the instant the loop first polls the task fall
strictly before the deadline; then a successful launch gives the captured
output and a failed launch gives the CommandLaunch error.  Otherwise the
deadline is reached first, the expired timer is polled first, and the
outcome is the Timeout error.  For the first task the poll instant is the
dispatch instant 0, so the original first-to-finish reading holds
there. -/
theorem race_resolves_at_poll (cfg : Config) (env : ExecEnv) (i : Nat) :
    (max (pollTime cfg env i) (taskStart cfg env i + env.execDur i) <
        cfg.timeout_ms →
      (∀ out, env.shell i (renderedCmd cfg (cfg.hostnames.getD i [])) = .ok out →
        taskOutcome cfg env i = .ok out) ∧
      (∀ cause,
        env.shell i (renderedCmd cfg (cfg.hostnames.getD i [])) = .error cause →
        taskOutcome cfg env i = .error (.commandLaunch cause))) ∧
    (cfg.timeout_ms ≤
        max (pollTime cfg env i) (taskStart cfg env i + env.execDur i) →
      taskOutcome cfg env i = .error .timeout) := by
  have hout : taskOutcome cfg env i =
      if max (pollTime cfg env i) (taskStart cfg env i + env.execDur i) <
          cfg.timeout_ms
      then runCmd (env.shell i) (renderedCmd cfg (cfg.hostnames.getD i []))
      else .error .timeout := by
    rw [taskOutcome, resolveFut_fst, mkFut_finish, mkFut_deadline, mkFut_result]
  constructor
  · intro hfast
    constructor
    · intro out ho
      rw [hout, if_pos hfast]
      simp only [runCmd, ho]
    · intro cause hcs
      rw [hout, if_pos hfast]
      simp only [runCmd, hcs]
  · intro hslow
    rw [hout, if_neg (Nat.not_lt.mpr hslow)]

/-- Witness for the amended C2: a fast successful executor, a fast
failing executor, and a zero deadline that is due before a one-unit
executor, each polled first at the dispatch instant. -/
theorem race_resolves_at_poll_witness :
    taskOutcome cfgW envOk 0 = .ok outW ∧
    taskOutcome cfgW envErr 0 = .error (.commandLaunch causeW) ∧
    taskOutcome cfgZeroTimeout envOk 0 = .error .timeout := by
  refine ⟨?_, ?_, ?_⟩
  · exact ((race_resolves_at_poll cfgW envOk 0).1 (by decide)).1 outW rfl
  · exact ((race_resolves_at_poll cfgW envErr 0).1 (by decide)).2 causeW rfl
  · exact (race_resolves_at_poll cfgZeroTimeout envOk 0).2 (by decide)

/-- C5: whenever the shell process launches and exits, runCmd passes the
captured output through whatever the exit status, and an error of runCmd
is always a CommandLaunch error caused by an inability to launch the
shell. -/
theorem runCmd_success_regardless_exit_status
    (shell : List Char → Except String Output) (cmd : List Char) :
    (∀ status so se, shell cmd = .ok ⟨status, so, se⟩ →
      runCmd shell cmd = .ok ⟨status, so, se⟩) ∧
    (∀ cause, shell cmd = .error cause →
      runCmd shell cmd = .error (.commandLaunch cause)) ∧
    (∀ k, runCmd shell cmd = .error k →
      ∃ cause, k = .commandLaunch cause ∧ shell cmd = .error cause) := by
  refine ⟨?_, ?_, ?_⟩
  · intro status so se h
    simp [runCmd, h]
  · intro cause h
    simp [runCmd, h]
  · intro k h
    rw [runCmd] at h
    cases hs : shell cmd with
    | ok o =>
      rw [hs] at h
      exact absurd h (by simp)
    | error c =>
      rw [hs] at h
      simp at h
      exact ⟨c, h.symm, rfl⟩

/-- Witness for C5: an always-launching shell whose process exits with
the nonzero status 7, and an always-failing shell. -/
theorem runCmd_success_regardless_exit_status_witness :
    runCmd (shellOk 0) ['c'] = .ok outW ∧
    runCmd (shellErr 0) ['c'] = .error (.commandLaunch causeW) :=
  ⟨(runCmd_success_regardless_exit_status (shellOk 0) ['c']).1
      7 (String.mk ['o']) (String.mk ['e']) rfl,
    (runCmd_success_regardless_exit_status (shellErr 0) ['c']).2.1 causeW rfl⟩

/-- C8: the deadline of a task is anchored at dispatch, so time spent
queued for a free pool slot counts against the timeout: a task whose
slot only frees at or after the deadline resolves to the Timeout error no
matter what its executor would have produced, hence without its command
ever having started before the deadline. -/
theorem deadline_counts_queue_wait (cfg : Config) (env : ExecEnv) (i : Nat)
    (hq : cfg.timeout_ms ≤ taskStart cfg env i) :
    taskOutcome cfg env i = .error .timeout := by
  have h1 : cfg.timeout_ms ≤
      max (pollTime cfg env i) (taskStart cfg env i + env.execDur i) :=
    le_trans (le_trans hq (Nat.le_add_right _ _)) (le_max_right _ _)
  rw [taskOutcome, resolveFut_fst, mkFut_finish, mkFut_deadline,
    if_neg (Nat.not_lt.mpr h1)]

/-- Witness for C8: one worker, two hostnames, ten-unit commands and a
five-unit timeout; the second task starts at instant 10, past its
deadline 5, and times out although its shell oracle always succeeds. -/
theorem deadline_counts_queue_wait_witness :
    cfgOneWorker.thread_count < cfgOneWorker.hostnames.length ∧
    cfgOneWorker.timeout_ms ≤ taskStart cfgOneWorker envSlow 1 ∧
    taskOutcome cfgOneWorker envSlow 1 = .error .timeout :=
  ⟨by decide, by decide, deadline_counts_queue_wait cfgOneWorker envSlow 1 (by decide)⟩

end EachCmd

namespace EachCmd

/-- A run whose configuration loads, parses and has a positive thread
count reaches the wait loop and ends with the collected outcomes. -/
theorem runProgram_ok_case (lenv : LoadEnv) (env : ExecEnv) (content : String)
    (cfg : Config) (hf : lenv.fileContent = .ok content)
    (hp : lenv.parsed content = .ok cfg) (hne : cfg.thread_count ≠ 0) :
    runProgram lenv env = .ok (runOutcomes cfg env) := by
  simp only [runProgram, hf, hp]
  rw [if_neg hne]

/-- A run whose configuration loads and parses with a zero thread count
panics at the pool construction. -/
theorem runProgram_panic_case (lenv : LoadEnv) (env : ExecEnv) (content : String)
    (cfg : Config) (hf : lenv.fileContent = .ok content)
    (hp : lenv.parsed content = .ok cfg) (h0 : cfg.thread_count = 0) :
    runProgram lenv env = .panicked poolSizePanic := by
  simp only [runProgram, hf, hp, h0]
  rw [if_pos trivial]

/-- C3: a configuration whose thread count is 0 is rejected at the pool
construction, before any task is created or submitted: the run aborts the
same way under every execution environment, no task is ever submitted,
and the rejection is a whole-run signal, never delivered as the outcome
list of a completed run. -/
theorem zero_workers_rejected (lenv : LoadEnv) (env : ExecEnv)
    (content : String) (cfg : Config)
    (hf : lenv.fileContent = .ok content) (hp : lenv.parsed content = .ok cfg)
    (h0 : cfg.thread_count = 0) :
    runProgram lenv env = .panicked poolSizePanic ∧
    (∀ env2, runProgram lenv env2 = .panicked poolSizePanic) ∧
    submittedTasks lenv = [] ∧
    ∀ outs, runProgram lenv env ≠ .ok outs := by
  have hrun : ∀ env2 : ExecEnv, runProgram lenv env2 = .panicked poolSizePanic :=
    fun env2 => runProgram_panic_case lenv env2 content cfg hf hp h0
  refine ⟨hrun env, hrun, ?_, ?_⟩
  · simp only [submittedTasks, hf, hp, h0]
    rw [if_pos trivial]
  · intro outs he
    rw [hrun env] at he
    exact RunExit.noConfusion he

/-- Witness for C3 on the zero-worker configuration. -/
theorem zero_workers_rejected_witness :
    runProgram (lenvOf cfgZeroWorkers) envOk = .panicked poolSizePanic ∧
    (∀ env2, runProgram (lenvOf cfgZeroWorkers) env2 = .panicked poolSizePanic) ∧
    submittedTasks (lenvOf cfgZeroWorkers) = [] ∧
    ∀ outs, runProgram (lenvOf cfgZeroWorkers) envOk ≠ .ok outs :=
  zero_workers_rejected (lenvOf cfgZeroWorkers) envOk contentW cfgZeroWorkers
    rfl rfl rfl

/-- Counterexample to C6 as stated: envLate and envOk run the same shell
oracle and give invocation 1 the same one-unit duration; under envOk both
slots of cfgLate are Success, but making only invocation 0 slow enough
that task 0 times out also flips slot 1 to the Timeout error, because the
wait loop reaches it only at the shared deadline.  A TimedOut failure at
index 0 thus propagates into the outcome slot of index 1. -/
theorem timeout_propagation_cex :
    envLate.shell = envOk.shell ∧
    envLate.execDur 1 = envOk.execDur 1 ∧
    (runOutcomes cfgLate envOk).getD 0 (.error .timeout) = .ok outW ∧
    (runOutcomes cfgLate envOk).getD 1 (.error .timeout) = .ok outW ∧
    (runOutcomes cfgLate envLate).getD 0 (.ok outW) = .error .timeout ∧
    (runOutcomes cfgLate envLate).getD 1 (.ok outW) = .error .timeout :=
  ⟨rfl, rfl, rfl, rfl, rfl, rfl⟩

/-- C6 amended: a per-task failure never aborts the whole run, which
always completes normally with its full outcome list, and a LaunchFailure
at one index never propagates into or corrupts another slot: perturbing
only the shell behaviour of one invocation, all durations unchanged,
leaves every other index with an identical outcome.  A TimedOut failure,
by contrast, can propagate to later slots through the sequential wait
loop, as the counterexample shows. -/
theorem launch_failure_isolated (lenv : LoadEnv) (env env2 : ExecEnv)
    (cfg : Config) (content : String) (i : Nat)
    (hf : lenv.fileContent = .ok content) (hp : lenv.parsed content = .ok cfg)
    (hc : 0 < cfg.thread_count)
    (hd : ∀ k, env2.execDur k = env.execDur k)
    (hs : ∀ k, k ≠ i → env2.shell k = env.shell k) :
    runProgram lenv env = .ok (runOutcomes cfg env) ∧
    (runOutcomes cfg env2).length = (runOutcomes cfg env).length ∧
    ∀ j, j < cfg.hostnames.length → j ≠ i →
      (runOutcomes cfg env2).getD j (.error .timeout) =
        (runOutcomes cfg env).getD j (.error .timeout) := by
  refine ⟨runProgram_ok_case lenv env content cfg hf hp (by omega), ?_, ?_⟩
  · rw [runOutcomes_eq, runOutcomes_eq]
    simp
  · intro j hj hji
    rw [runOutcomes_eq, runOutcomes_eq,
      List.getD_eq_getElem _ _ (by simpa using hj),
      List.getD_eq_getElem _ _ (by simpa using hj)]
    simp only [List.getElem_map, List.getElem_range]
    rw [taskOutcome, taskOutcome, resolveFut_fst, resolveFut_fst,
      mkFut_finish, mkFut_finish, mkFut_deadline, mkFut_deadline,
      mkFut_result, mkFut_result, pollTime_congr cfg env env2 hd j,
      taskStart_congr cfg env env2 hd j, hd j, hs j hji]

/-- Witness for the amended C6: invocation 0 fails to launch while
invocation 1 is untouched; the run completes and slot 1 is identical. -/
theorem launch_failure_isolated_witness :
    runProgram (lenvOf cfgW) envOk = .ok (runOutcomes cfgW envOk) ∧
    (runOutcomes cfgW envMix).length = (runOutcomes cfgW envOk).length ∧
    ∀ j, j < cfgW.hostnames.length → j ≠ 0 →
      (runOutcomes cfgW envMix).getD j (.error .timeout) =
        (runOutcomes cfgW envOk).getD j (.error .timeout) :=
  launch_failure_isolated (lenvOf cfgW) envOk envMix cfgW contentW 0 rfl rfl
    (by decide) (fun _ => rfl)
    (by
      intro k hk
      funext c
      simp [envMix, envOk, hk])

/-- C7: with an empty hostname list and an otherwise valid configuration
the run is legal: the run result is the empty sequence, no task is ever
created or submitted, and the process exits with code 0. -/
theorem empty_hostnames_legal (lenv : LoadEnv) (env : ExecEnv)
    (content : String) (cfg : Config)
    (hf : lenv.fileContent = .ok content) (hp : lenv.parsed content = .ok cfg)
    (hh : cfg.hostnames = []) (hc : 0 < cfg.thread_count) :
    runProgram lenv env = .ok [] ∧
    submittedTasks lenv = [] ∧
    mainExit lenv env = 0 := by
  have hne : cfg.thread_count ≠ 0 := by omega
  have hout : runOutcomes cfg env = [] := by
    rw [runOutcomes_eq, hh]
    rfl
  have htasks : tasks cfg = [] := by
    rw [tasks, hh]
    rfl
  have hrun : runProgram lenv env = .ok [] := by
    rw [runProgram_ok_case lenv env content cfg hf hp hne, hout]
  refine ⟨hrun, ?_, ?_⟩
  · simp only [submittedTasks, hf, hp]
    rw [if_neg hne, htasks]
  · simp [mainExit, hrun]

/-- Witness for C7 on the hostname-free configuration. -/
theorem empty_hostnames_legal_witness :
    runProgram (lenvOf cfgNoHosts) envOk = .ok [] ∧
    submittedTasks (lenvOf cfgNoHosts) = [] ∧
    mainExit (lenvOf cfgNoHosts) envOk = 0 :=
  empty_hostnames_legal (lenvOf cfgNoHosts) envOk contentW cfgNoHosts
    rfl rfl rfl (by decide)

/-- C9: the exit code is 0 whenever the configuration loads, parses and
has a positive thread count, no matter what every task does, and the exit
code is 1 only when the configuration file cannot be read or its content
cannot be parsed. -/
theorem exit_code_policy (lenv : LoadEnv) (env : ExecEnv) :
    (∀ content cfg, lenv.fileContent = .ok content →
      lenv.parsed content = .ok cfg → 0 < cfg.thread_count →
      mainExit lenv env = 0) ∧
    (mainExit lenv env = 1 →
      (∃ e, lenv.fileContent = .error e) ∨
      (∃ content e, lenv.fileContent = .ok content ∧
        lenv.parsed content = .error e)) := by
  constructor
  · intro content cfg hf hp hc
    have h := runProgram_ok_case lenv env content cfg hf hp (by omega)
    simp [mainExit, h]
  · intro h1
    cases hf : lenv.fileContent with
    | error e => exact Or.inl ⟨e, rfl⟩
    | ok content =>
      cases hp : lenv.parsed content with
      | error e => exact Or.inr ⟨content, e, rfl, hp⟩
      | ok cfg =>
        exfalso
        by_cases h0 : cfg.thread_count = 0
        · have h := runProgram_panic_case lenv env content cfg hf hp h0
          simp only [mainExit, h] at h1
          exact absurd h1 (by omega)
        · have h := runProgram_ok_case lenv env content cfg hf hp h0
          simp only [mainExit, h] at h1
          exact absurd h1 (by omega)

/-- Witness for C9: every launch fails yet the exit code is 0, and an
unreadable configuration file is behind an observed exit code 1. -/
theorem exit_code_policy_witness :
    mainExit (lenvOf cfgW) envErr = 0 ∧
    ((∃ e, lenvBad.fileContent = .error e) ∨
      (∃ content e, lenvBad.fileContent = .ok content ∧
        lenvBad.parsed content = .error e)) :=
  ⟨(exit_code_policy (lenvOf cfgW) envErr).1 contentW cfgW rfl rfl (by decide),
    (exit_code_policy lenvBad envErr).2 rfl⟩

end EachCmd
